import Mathlib

/-!
Shallow embedding of the SVG-handling core of this repository
(manimlib/mobject/svg/svg_mobject.py) and proofs about its behaviour.

Coordinates are modelled as rationals: every concrete value exercised here
is exactly representable both as a rational and as a binary float, so no
floating-point rounding is involved in any statement below.

Path-building primitives of the class VMobject (start_new_path, add_line_to,
close_path, get_last_point, ...) are not part of the given sources; they are
modelled from the spec (sections 3 and 4.1) as an explicit subpath/segment
state.  Everything else is translated directly from svg_mobject.py.
-/

deriving instance DecidableEq for Except

namespace SvgSpec

/-- A 3-d point; the source keeps points as length-3 numpy rows with z = 0. -/
@[ext]
structure Pt3 where
  x : ℚ
  y : ℚ
  z : ℚ
deriving DecidableEq

/-- Pointwise addition, modelling `new_points += self.relative_point`. -/
def padd (p q : Pt3) : Pt3 := ⟨p.x + q.x, p.y + q.y, p.z + q.z⟩

/-- Pointwise subtraction, modelling `leftover_points -= self.relative_point`. -/
def psub (p q : Pt3) : Pt3 := ⟨p.x - q.x, p.y - q.y, p.z - q.z⟩

/-- The origin, modelling the constant ORIGIN = np.array([0, 0, 0]). -/
def originPt : Pt3 := ⟨0, 0, 0⟩

/-- Numeric value of a decimal digit character. -/
def digitVal (c : Char) : Nat := c.toNat - 48

/-- Value of a list of decimal digit characters. -/
def natOfDigits (l : List Char) : Nat := l.foldl (fun acc c => 10 * acc + digitVal c) 0

/-- The whitespace Python's float() strips around a literal (the
Py_UNICODE_ISSPACE code points). -/
def isPyWs (c : Char) : Bool :=
  let n := c.toNat
  (decide (9 ≤ n) && decide (n ≤ 13)) || (decide (28 ≤ n) && decide (n ≤ 31)) ||
  n == 32 || n == 133 || n == 160 || n == 5760 ||
  (decide (8192 ≤ n) && decide (n ≤ 8202)) || n == 8232 || n == 8233 ||
  n == 8239 || n == 8287 || n == 12288

/-- Strips the float() whitespace from both ends of a token. -/
def stripPyWs (cs : List Char) : List Char :=
  ((cs.dropWhile isPyWs).reverse.dropWhile isPyWs).reverse

/-- A run of decimal digits possibly separated by single underscores
(PEP 515: each underscore must sit between two digits).  Returns the
digits collected, underscores dropped, with the unconsumed remainder —
a misplaced underscore is left in the remainder, where the surrounding
grammar rejects it exactly as float() does. -/
def spanDigitsU : List Char → List Char × List Char
  | c :: '_' :: d :: rest =>
    if c.isDigit then
      if d.isDigit then
        let (ds, r) := spanDigitsU (d :: rest)
        (c :: ds, r)
      else ([c], '_' :: d :: rest)
    else ([], c :: '_' :: d :: rest)
  | c :: rest =>
    if c.isDigit then
      let (ds, r) := spanDigitsU rest
      (c :: ds, r)
    else ([], c :: rest)
  | [] => ([], [])

/-- Exponent suffix of a Python float literal: either nothing, or
`e`/`E` followed by an optional sign and a nonempty digit run.
Returns the scale factor 10^±k, or none on malformed input. -/
def parseExpPart : List Char → Option ℚ
  | [] => some 1
  | c :: rest =>
    if c = 'e' ∨ c = 'E' then
      match rest with
      | '-' :: ds =>
        let (d, r) := spanDigitsU ds
        if d = [] ∨ r ≠ [] then none else some (1 / (10 : ℚ) ^ natOfDigits d)
      | '+' :: ds =>
        let (d, r) := spanDigitsU ds
        if d = [] ∨ r ≠ [] then none else some ((10 : ℚ) ^ natOfDigits d)
      | ds =>
        let (d, r) := spanDigitsU ds
        if d = [] ∨ r ≠ [] then none else some ((10 : ℚ) ^ natOfDigits d)
    else none

/-- Unsigned Python float literal: `D+ [. D*]` or `. D+`, with an optional
exponent suffix and PEP-515 underscores; anything else is rejected
(Python float() raises). -/
def parseUnsignedFloat (cs : List Char) : Option ℚ :=
  let (ip, r1) := spanDigitsU cs
  match r1 with
  | '.' :: r2 =>
    let (fp, r3) := spanDigitsU r2
    if ip = [] ∧ fp = [] then none
    else
      (parseExpPart r3).map
        (fun e => ((natOfDigits (ip ++ fp) : ℚ) / (10 : ℚ) ^ fp.length) * e)
  | _ =>
    if ip = [] then none
    else (parseExpPart r1).map (fun e => (natOfDigits ip : ℚ) * e)

/-- Python float(token) on finite decimal literals: surrounding whitespace
is stripped, then an optional sign precedes the digits/dot/exponent body
with PEP-515 underscores.  float() additionally accepts the non-finite
words inf, infinity and nan; their values lie outside this embedding's
rational domain, so they map to none here, and pyFloatAccepted below
recognises the full accepted language for use wherever only acceptance
(float() not raising) matters. -/
def parseFloat (cs0 : List Char) : Option ℚ :=
  match stripPyWs cs0 with
  | '-' :: rest => (parseUnsignedFloat rest).map Neg.neg
  | '+' :: rest => parseUnsignedFloat rest
  | cs => parseUnsignedFloat cs

/-- Models `num_string.replace("-", ",-")`. -/
def replaceMinus (cs : List Char) : List Char :=
  cs.flatMap (fun c => if c = '-' then [',', '-'] else [c])

/-- Models `num_string.replace("e,-", "e-")` (left-to-right, non-overlapping). -/
def fixEMinus : List Char → List Char
  | 'e' :: ',' :: '-' :: rest => 'e' :: '-' :: fixEMinus rest
  | c :: rest => c :: fixEMinus rest
  | [] => []

/-- Models `re.split("[ ,]", s)`: split at every single space or comma. -/
def splitSepAux : List Char → List Char → List (List Char)
  | [], acc => [acc.reverse]
  | c :: rest, acc =>
    if c = ' ' ∨ c = ',' then acc.reverse :: splitSepAux rest []
    else splitSepAux rest (c :: acc)

/-- The nonempty pieces the coordinate text splits into: dashes become
separators (keeping `e-` exponents intact), the string is split on spaces
and commas, and empty pieces are dropped. -/
def numberPieces (s : String) : List (List Char) :=
  (splitSepAux (fixEMinus (replaceMinus s.data)) []).filter (· ≠ [])

/-- Left-to-right traversal of an Option-valued function over a list:
the first failure fails the whole list, as the comprehension of
string_to_numbers raises at the first bad float() call. -/
def mapOpt {α β : Type} (f : α → Option β) : List α → Option (List β)
  | [] => some []
  | a :: t =>
    match f a, mapOpt f t with
    | some b, some bs => some (b :: bs)
    | _, _ => none

/-- Models the module-level function string_to_numbers: each nonempty
piece of the coordinate text is parsed as a float.  Returns none when
Python float() would raise on some piece (and, per the parseFloat doc
comment, on the non-finite words, which have no rational value). -/
def stringToNumbers (s : String) : Option (List ℚ) :=
  mapOpt parseFloat (numberPieces s)

/-- The SVG path command letters, upper and lower case, as used to build the
tokenizing regular expression in get_commands_and_coord_strings. -/
def isCommandChar (c : Char) : Bool :=
  c == 'M' || c == 'L' || c == 'H' || c == 'V' || c == 'C' || c == 'S' ||
  c == 'Q' || c == 'T' || c == 'A' || c == 'Z' ||
  c == 'm' || c == 'l' || c == 'h' || c == 'v' || c == 'c' || c == 's' ||
  c == 'q' || c == 't' || c == 'a' || c == 'z'

/-- Accumulates the coordinate text following the current command letter. -/
def tokAux : List Char → Char → List Char → List (Char × String)
  | [], c0, acc => [(c0, String.mk acc.reverse)]
  | ch :: rest, c0, acc =>
    if isCommandChar ch then (c0, String.mk acc.reverse) :: tokAux rest ch []
    else tokAux rest c0 (ch :: acc)

/-- Skips any text before the first command letter (`re.split(...)[1:]`). -/
def findFirstCmd : List Char → List (Char × String)
  | [] => []
  | ch :: rest => if isCommandChar ch then tokAux rest ch [] else findFirstCmd rest

/-- Models get_commands_and_coord_strings: the zip of the command letters of
the path string with the text between consecutive command letters. -/
def tokenizePath (s : String) : List (Char × String) := findFirstCmd s.data

/-- Failure conditions of the compiler: badNumber models a float() ValueError,
badReshape a numpy reshape error on an odd coordinate count, notImplemented
the explicit `raise Exception("Not implemented")` for arc commands,
badArity a TypeError from calling a curve function with too few points,
noSubpath / emptyPoints an indexing error on an empty point array, and
cacheCorrupt / writeFailed an IO error raised by np.load / np.save. -/
inductive PErr where
  | badNumber
  | badReshape
  | notImplemented
  | badArity
  | noSubpath
  | emptyPoints
  | unknownCommand
  | cacheCorrupt
  | writeFailed
deriving DecidableEq

/-- Modelled from the spec: one curve segment of a subpath, tagged with the
command kind that produced it and carrying that command's coordinate data
(section 3: a subpath is an ordered sequence of curve segments). -/
inductive Seg where
  | line (e : Pt3)
  | cubic (c1 c2 e : Pt3)
  | smoothCubic (c2 e : Pt3)
  | quad (c e : Pt3)
  | smooth (e : Pt3)
deriving DecidableEq

/-- Endpoint of a segment (the spec's "current point" after emitting it). -/
def segEnd : Seg → Pt3
  | .line e => e
  | .cubic _ _ e => e
  | .smoothCubic _ e => e
  | .quad _ e => e
  | .smooth e => e

/-- Modelled from the spec: a subpath with its start point, its segments in
order, and an explicit closure flag (section 3). -/
structure Subpath where
  start : Pt3
  segs : List Seg
  closed : Bool
deriving DecidableEq

/-- Modelled from the spec: the path-building state of a
VMobjectFromSVGPathstring while its command string is being consumed:
finished subpaths, the subpath under construction, and the
relative_point attribute used for lowercase commands. -/
structure PathState where
  done : List Subpath
  cur : Option Subpath
  relativePoint : Pt3
deriving DecidableEq

/-- Endpoint of the last emitted segment of a subpath, or its start point. -/
def subLast (sp : Subpath) : Pt3 :=
  match sp.segs.getLast? with
  | some sg => segEnd sg
  | none => sp.start

/-- Modelled from the spec: get_last_point — the most recent point of the
geometry, none when no point exists yet. -/
def getLastPoint (st : PathState) : Option Pt3 :=
  match st.cur with
  | some sp => some (subLast sp)
  | none => (st.done.getLast?).map subLast

/-- Modelled from the spec: start_new_path — finish the current subpath and
open a fresh one at the given point. -/
def startNewPath (p : Pt3) (st : PathState) : PathState :=
  ⟨st.done ++ st.cur.toList, some ⟨p, [], false⟩, st.relativePoint⟩

/-- Modelled from the spec: appending a segment to the current subpath;
with no current subpath the source's numpy indexing would fail. -/
def addSeg (sg : Seg) (st : PathState) : Except PErr PathState :=
  match st.cur with
  | none => .error .noSubpath
  | some sp => .ok { st with cur := some { sp with segs := sp.segs ++ [sg] } }

/-- Modelled from the spec: close_path — emit the closing line segment back
to the subpath's start point and record the closure explicitly. -/
def closeSubpath (st : PathState) : Except PErr PathState :=
  match st.cur with
  | none => .error .noSubpath
  | some sp =>
    .ok { st with cur := some { sp with segs := sp.segs ++ [Seg.line sp.start], closed := true } }

/-- The VMobject curve functions reachable from the command map. -/
inductive CmdK where
  | move
  | lineTo
  | cubicTo
  | smoothCubicTo
  | quadTo
  | smoothTo
  | closeK
deriving DecidableEq

/-- Models get_command_to_function_map (the map is keyed by the uppercase
letter; command_to_function uppercases before the lookup): each command's
curve function together with the number of points it consumes. -/
def commandToFunction (c : Char) : Option (CmdK × Nat) :=
  if c.toUpper = 'M' then some (.move, 1)
  else if c.toUpper = 'L' then some (.lineTo, 1)
  else if c.toUpper = 'H' then some (.lineTo, 1)
  else if c.toUpper = 'V' then some (.lineTo, 1)
  else if c.toUpper = 'C' then some (.cubicTo, 3)
  else if c.toUpper = 'S' then some (.smoothCubicTo, 2)
  else if c.toUpper = 'Q' then some (.quadTo, 2)
  else if c.toUpper = 'T' then some (.smoothTo, 1)
  else if c.toUpper = 'A' then some (.quadTo, 2)
  else if c.toUpper = 'Z' then some (.closeK, 0)
  else none

/-- Applies one curve function to its argument points (func(*new_points[:n]));
a pattern mismatch models Python's TypeError on missing arguments. -/
def applyCmd (k : CmdK) (args : List Pt3) (st : PathState) : Except PErr PathState :=
  match k, args with
  | .move, [p] => .ok (startNewPath p st)
  | .lineTo, [p] => addSeg (.line p) st
  | .cubicTo, [c1, c2, e] => addSeg (.cubic c1 c2 e) st
  | .smoothCubicTo, [c2, e] => addSeg (.smoothCubic c2 e) st
  | .quadTo, [c, e] => addSeg (.quad c e) st
  | .smoothTo, [e] => addSeg (.smooth e) st
  | .closeK, [] => closeSubpath st
  | _, _ => .error .badArity

/-- Models string_to_points: parse the coordinate text into numbers; H and V
place their numbers on one axis, copying the other axis from relative_point
only for the absolute (uppercase) form; A raises "Not implemented"; all other
commands reshape the numbers into coordinate pairs (an odd count fails). -/
def stringToPoints (rp : Pt3) (cmd : Char) (coords : String) : Except PErr (List Pt3) :=
  match stringToNumbers coords with
  | none => .error .badNumber
  | some nums =>
    if cmd.toUpper = 'H' ∨ cmd.toUpper = 'V' then
      .ok (nums.map (fun n =>
        if cmd.toUpper = 'H' then ⟨n, if cmd.isUpper then rp.y else 0, 0⟩
        else ⟨if cmd.isUpper then rp.x else 0, n, 0⟩))
    else if cmd.toUpper = 'A' then .error .notImplemented
    else
      match pairUp nums with
      | none => .error .badReshape
      | some ps => .ok (ps.map (fun p => ⟨p.1, p.2, 0⟩))
where
  /-- numpy reshape((len // 2, 2)): consecutive pairs, odd length fails. -/
  pairUp : List ℚ → Option (List (ℚ × ℚ))
    | [] => some []
    | a :: b :: rest => (pairUp rest).map ((a, b) :: ·)
    | [_] => none

/-- Models handle_command, with explicit fuel standing for the call stack:
lowercase commands first add relative_point to every point; the command's
function consumes its arity worth of points; leftover points restart the
same command (an M's leftovers become a lowercase l), rebased for relative
commands by subtracting the old relative_point and updating it to the last
emitted point.  A `none` result means the recursion consumed all fuel. -/
def handleCommand : Nat → Char → List Pt3 → PathState → Option (Except PErr PathState)
  | 0, _, _, _ => none
  | fuel + 1, cmd, pts0, st =>
    let pts := if cmd.isLower then pts0.map (padd · st.relativePoint) else pts0
    match commandToFunction cmd with
    | none => some (.error .unknownCommand)
    | some (k, n) =>
      match applyCmd k (pts.take n) st with
      | .error e => some (.error e)
      | .ok st1 =>
        let leftover := pts.drop n
        if leftover.isEmpty then
          match getLastPoint st1 with
          | none => some (.error .emptyPoints)
          | some lp => some (.ok { st1 with relativePoint := lp })
        else
          let cmd2 := if cmd.toUpper = 'M' then 'l' else cmd
          if cmd2.isLower then
            match getLastPoint st1 with
            | none => some (.error .emptyPoints)
            | some lp =>
              handleCommand fuel cmd2 (leftover.map (psub · st1.relativePoint))
                { st1 with relativePoint := lp }
          else
            handleCommand fuel cmd2 leftover st1

/-- The per-command loop of init_points: string_to_points then handle_command
for each (command, coordinate text) token.  handle_command is given fuel
pts.length + 1, which suffices for every terminating run (each recursive call
consumes at least one point); `none` therefore marks a diverging run. -/
def compileCommands : List (Char × String) → PathState → Option (Except PErr PathState)
  | [], st => some (.ok st)
  | (c, cs) :: rest, st =>
    match stringToPoints st.relativePoint c cs with
    | .error e => some (.error e)
    | .ok pts =>
      match handleCommand (pts.length + 1) c pts st with
      | none => none
      | some (.error e) => some (.error e)
      | some (.ok st1) => compileCommands rest st1

/-- The initial state: relative_point starts at ORIGIN and no point exists. -/
def initState : PathState := ⟨[], none, originPt⟩

/-- Compiling a whole path string (the command loop of init_points, before
the final y-flip). -/
def compilePath (s : String) : Option (Except PErr PathState) :=
  compileCommands (tokenizePath s) initState

/-- Models `self.stretch(-1, 1, about_point=ORIGIN)`: negate the y axis. -/
def pflip (p : Pt3) : Pt3 := ⟨p.x, -p.y, p.z⟩

/-- The y-flip applied to one segment. -/
def flipSeg : Seg → Seg
  | .line e => .line (pflip e)
  | .cubic c1 c2 e => .cubic (pflip c1) (pflip c2) (pflip e)
  | .smoothCubic c2 e => .smoothCubic (pflip c2) (pflip e)
  | .quad c e => .quad (pflip c) (pflip e)
  | .smooth e => .smooth (pflip e)

/-- The y-flip applied to one subpath. -/
def flipSub (sp : Subpath) : Subpath := ⟨pflip sp.start, sp.segs.map flipSeg, sp.closed⟩

/-- The emitted geometry of a finished compile: all subpaths in order. -/
def finishGeom (st : PathState) : List Subpath := st.done ++ st.cur.toList

/-- Full geometry compilation as performed by init_points on a cache miss:
compile the command string, then mirror every point across the x axis
(SVG's y grows downward).  The optional sharp-curve subdivision and
null-curve removal passes are disabled by this class's CONFIG defaults. -/
def compileGeometry (s : String) : Option (Except PErr (List Subpath)) :=
  (compilePath s).map (fun r => r.map (fun st => (finishGeom st).map flipSub))

/-- Whether the path string contains an arc command letter. -/
def hasArc (s : String) : Bool := s.data.any (fun c => c == 'A' || c == 'a')

/-- The last point of a successful compile, for stating endpoint facts. -/
def lastPointOf (r : Option (Except PErr PathState)) : Option Pt3 :=
  match r with
  | some (.ok st) => getLastPoint st
  | _ => none

/-- All anchor points of a compile result (subpath starts and segment
endpoints), for stating point-set facts. -/
def anchorsOf (r : Option (Except PErr PathState)) : Option (List Pt3) :=
  match r with
  | some (.ok st) => some ((finishGeom st).flatMap (fun sp => sp.start :: sp.segs.map segEnd))
  | _ => none

/-! SHA-256, modelling hashlib.sha256(path_string.encode()).hexdigest().
Words are naturals reduced modulo 2^32. -/

/-- Reduce modulo 2^32. -/
def w32 (n : Nat) : Nat := n % 4294967296

/-- Right rotation of a 32-bit word. -/
def rotr32 (x n : Nat) : Nat := w32 ((x >>> n) ||| (x <<< (32 - n)))

/-- SHA-256 Σ0. -/
def bigSigma0 (x : Nat) : Nat := rotr32 x 2 ^^^ rotr32 x 13 ^^^ rotr32 x 22

/-- SHA-256 Σ1. -/
def bigSigma1 (x : Nat) : Nat := rotr32 x 6 ^^^ rotr32 x 11 ^^^ rotr32 x 25

/-- SHA-256 σ0. -/
def smallSigma0 (x : Nat) : Nat := rotr32 x 7 ^^^ rotr32 x 18 ^^^ (x >>> 3)

/-- SHA-256 σ1. -/
def smallSigma1 (x : Nat) : Nat := rotr32 x 17 ^^^ rotr32 x 19 ^^^ (x >>> 10)

/-- SHA-256 choice function (¬x taken inside 32 bits). -/
def chFn (x y z : Nat) : Nat := (x &&& y) ^^^ ((x ^^^ 4294967295) &&& z)

/-- SHA-256 majority function. -/
def majFn (x y z : Nat) : Nat := (x &&& y) ^^^ (x &&& z) ^^^ (y &&& z)

/-- The 64 SHA-256 round constants. -/
def kConstants : List Nat :=
  [1116352408, 1899447441, 3049323471, 3921009573, 961987163,
   1508970993, 2453635748, 2870763221, 3624381080, 310598401,
   607225278, 1426881987, 1925078388, 2162078206, 2614888103,
   3248222580, 3835390401, 4022224774, 264347078, 604807628,
   770255983, 1249150122, 1555081692, 1996064986, 2554220882,
   2821834349, 2952996808, 3210313671, 3336571891, 3584528711,
   113926993, 338241895, 666307205, 773529912, 1294757372,
   1396182291, 1695183700, 1986661051, 2177026350, 2456956037,
   2730485921, 2820302411, 3259730800, 3345764771, 3516065817,
   3600352804, 4094571909, 275423344, 430227734, 506948616,
   659060556, 883997877, 958139571, 1322822218, 1537002063,
   1747873779, 1955562222, 2024104815, 2227730452, 2361852424,
   2428436474, 2756734187, 3204031479, 3329325298]

/-- Running state of the compression function. -/
structure Hash8 where
  a : Nat
  b : Nat
  c : Nat
  d : Nat
  e : Nat
  f : Nat
  g : Nat
  h : Nat
deriving DecidableEq

/-- The SHA-256 initial hash value. -/
def initH : Hash8 :=
  ⟨1779033703, 3144134277, 1013904242, 2773480762,
   1359893119, 2600822924, 528734635, 1541459225⟩

/-- Appends the next word of the message schedule. -/
def scheduleStep (ws : List Nat) : List Nat :=
  let i := ws.length
  ws ++ [w32 (smallSigma1 (ws.getD (i - 2) 0) + ws.getD (i - 7) 0 +
              smallSigma0 (ws.getD (i - 15) 0) + ws.getD (i - 16) 0)]

/-- Extends the 16 block words to the full 64-entry message schedule. -/
def fullSchedule (ws : List Nat) : List Nat :=
  (List.range 48).foldl (fun acc _ => scheduleStep acc) ws

/-- One of the 64 compression rounds. -/
def compressStep (st : Hash8) (kw : Nat × Nat) : Hash8 :=
  let t1 := w32 (st.h + bigSigma1 st.e + chFn st.e st.f st.g + kw.1 + kw.2)
  let t2 := w32 (bigSigma0 st.a + majFn st.a st.b st.c)
  ⟨w32 (t1 + t2), st.a, st.b, st.c, w32 (st.d + t1), st.e, st.f, st.g⟩

/-- Compresses one 16-word block into the running hash value. -/
def compressBlock (hv : Hash8) (block : List Nat) : Hash8 :=
  let ws := fullSchedule block
  let st := (kConstants.zip ws).foldl compressStep hv
  ⟨w32 (hv.a + st.a), w32 (hv.b + st.b), w32 (hv.c + st.c), w32 (hv.d + st.d),
   w32 (hv.e + st.e), w32 (hv.f + st.f), w32 (hv.g + st.g), w32 (hv.h + st.h)⟩

/-- Big-endian 8-byte encoding of the message bit length. -/
def be64 (n : Nat) : List Nat :=
  [w32 (n >>> 56) % 256, (n >>> 48) % 256, (n >>> 40) % 256, (n >>> 32) % 256,
   (n >>> 24) % 256, (n >>> 16) % 256, (n >>> 8) % 256, n % 256]

/-- SHA-256 padding: a 0x80 byte, zeros to 56 mod 64, then the bit length. -/
def padMsg (m : List Nat) : List Nat :=
  let k := (119 - m.length % 64) % 64
  m ++ [128] ++ List.replicate k 0 ++ be64 (8 * m.length)

/-- Groups bytes into big-endian 32-bit words. -/
def toWords : List Nat → List Nat
  | b0 :: b1 :: b2 :: b3 :: rest =>
    (b0 * 16777216 + b1 * 65536 + b2 * 256 + b3) :: toWords rest
  | _ => []

/-- Splits a byte list into 64-byte blocks (fuel-driven for totality). -/
def chunks64Aux : Nat → List Nat → List (List Nat)
  | 0, _ => []
  | _, [] => []
  | fuel + 1, l => l.take 64 :: chunks64Aux fuel (l.drop 64)

/-- Splits a byte list into 64-byte blocks. -/
def chunks64 (l : List Nat) : List (List Nat) := chunks64Aux l.length l

/-- The SHA-256 digest of a byte list, as eight 32-bit words. -/
def sha256Words (msg : List Nat) : Hash8 :=
  ((chunks64 (padMsg msg)).map toWords).foldl compressBlock initH

/-- Lower-case hex digit: 0-9 then a-f, by character code. -/
def hexNibble (n : Nat) : Char :=
  if n < 10 then Char.ofNat (48 + n) else Char.ofNat (87 + n)

/-- Lower-case hex rendering of a 32-bit word. -/
def hex8 (w : Nat) : List Char :=
  [hexNibble ((w >>> 28) % 16), hexNibble ((w >>> 24) % 16),
   hexNibble ((w >>> 20) % 16), hexNibble ((w >>> 16) % 16),
   hexNibble ((w >>> 12) % 16), hexNibble ((w >>> 8) % 16),
   hexNibble ((w >>> 4) % 16), hexNibble (w % 16)]

/-- Models str.encode(): the UTF-8 bytes of a string. -/
def utf8Bytes (s : String) : List Nat :=
  s.data.flatMap (fun c =>
    let n := c.toNat
    if n < 128 then [n]
    else if n < 2048 then [192 + n / 64, 128 + n % 64]
    else if n < 65536 then [224 + n / 4096, 128 + n / 64 % 64, 128 + n % 64]
    else [240 + n / 262144, 128 + n / 4096 % 64, 128 + n / 64 % 64, 128 + n % 64])

/-- Models hashlib.sha256(s.encode()).hexdigest(). -/
def sha256hex (s : String) : String :=
  let hv := sha256Words (utf8Bytes s)
  String.mk (hex8 hv.a ++ hex8 hv.b ++ hex8 hv.c ++ hex8 hv.d ++
             hex8 hv.e ++ hex8 hv.f ++ hex8 hv.g ++ hex8 hv.h)

/-! The geometry cache of init_points. -/

/-- Models `hasher.hexdigest()[:16]`. -/
def cacheKey (s : String) : String := (sha256hex s).take 16

/-- The points-cache file name for a path string (directory prefix elided:
the source joins it with the configurable mobject data directory). -/
def pointsName (s : String) : String := cacheKey s ++ "_points.npy"

/-- The triangulation-cache file name for a path string. -/
def trisName (s : String) : String := cacheKey s ++ "_tris.npy"

/-- A cache file's content: a valid saved geometry, or unreadable bytes. -/
inductive FileData where
  | valid (g : List Subpath)
  | corrupt
deriving DecidableEq

/-- First-match association-list lookup. -/
def alookup {α : Type} : List (String × α) → String → Option α
  | [], _ => none
  | (k, v) :: rest, key => if k = key then some v else alookup rest key

/-- Replace the first binding of a key, or append a new one. -/
def insRep {α : Type} : List (String × α) → String → α → List (String × α)
  | [], k, v => [(k, v)]
  | (k1, v1) :: rest, k, v =>
    if k1 = k then (k, v) :: rest else (k1, v1) :: insRep rest k v

/-- Modelled from the spec: the on-disk cache directory as a named-file
store, with a flag for whether writes succeed. -/
structure Store where
  files : List (String × FileData)
  writable : Bool
deriving DecidableEq

/-- os.path.exists / np.load on the store. -/
def fget (store : Store) (name : String) : Option FileData := alookup store.files name

/-- os.path.exists on the store. -/
def fexists (store : Store) (name : String) : Bool := (fget store name).isSome

/-- np.save on the store. -/
def fput (store : Store) (name : String) (d : FileData) : Store :=
  ⟨insRep store.files name d, store.writable⟩

/-- Models VMobjectFromSVGPathstring.init_points: hash the raw path string,
look for both the points file and the tris file; on a hit load the stored
(already y-flipped) geometry without recompiling; on a miss compile, flip,
and save the points file.  The result carries the produced geometry, the
updated store, and whether the curve compiler ran (the call-count hook of
the spec's testable properties).  A corrupt loaded file and a failed save
surface as errors, exactly as the unguarded np.load / np.save calls do. -/
def initPointsModel (store : Store) (s : String) :
    Option (Except PErr (List Subpath × Store × Bool)) :=
  let pf := pointsName s
  let tf := trisName s
  if fexists store pf && fexists store tf then
    match fget store pf with
    | some (.valid g) => some (.ok (g, store, false))
    | _ => some (.error .cacheCorrupt)
  else
    match compileGeometry s with
    | none => none
    | some (.error e) => some (.error e)
    | some (.ok g) =>
      if store.writable then some (.ok (g, fput store pf (.valid g), true))
      else some (.error .writeFailed)

/-! The matrix branch of SVGMobject.handle_transforms. -/

/-- A 3 by 3 matrix of rationals. -/
structure Mat3 where
  m00 : ℚ
  m01 : ℚ
  m02 : ℚ
  m10 : ℚ
  m11 : ℚ
  m12 : ℚ
  m20 : ℚ
  m21 : ℚ
  m22 : ℚ
deriving DecidableEq

/-- np.identity(self.dim). -/
def identity3 : Mat3 := ⟨1, 0, 0, 0, 1, 0, 0, 0, 1⟩

/-- matrix[:2, :2] = transform_args[:2, :], with transform_args the
3-by-2 reshape of (a, b, c, d, e, f): rows (a, b) and (c, d). -/
def setUpperLeft (m : Mat3) (a b c d : ℚ) : Mat3 :=
  { m with m00 := a, m01 := b, m10 := c, m11 := d }

/-- matrix[1] *= -1: negate row one. -/
def negRow1 (m : Mat3) : Mat3 :=
  { m with m10 := -m.m10, m11 := -m.m11, m12 := -m.m12 }

/-- matrix[:, 1] *= -1: negate column one. -/
def negCol1 (m : Mat3) : Mat3 :=
  { m with m01 := -m.m01, m11 := -m.m11, m21 := -m.m21 }

/-- The matrix built by the matrix branch from (a, b, c, d). -/
def svgMatrix (a b c d : ℚ) : Mat3 := negCol1 (negRow1 (setUpperLeft identity3 a b c d))

/-- np.dot(points, matrix) on one point row. -/
def dotRow (p : Pt3) (m : Mat3) : Pt3 :=
  ⟨p.x * m.m00 + p.y * m.m10 + p.z * m.m20,
   p.x * m.m01 + p.y * m.m11 + p.z * m.m21,
   p.x * m.m02 + p.y * m.m12 + p.z * m.m22⟩

/-- mobject.shift(x * RIGHT + y * UP). -/
def shiftPt (v p : Pt3) : Pt3 := padd p v

/-- Models the matrix branch of handle_transforms for op args
(a, b, c, d, e, f): every point of every family member is
right-multiplied by the built matrix, then the whole group is shifted
by x = e, y = -f. -/
def matrixTransformOp (a b c d e f : ℚ) (pts : List Pt3) : List Pt3 :=
  ((pts.map (fun p => dotRow p (svgMatrix a b c d))).map
    (shiftPt ⟨e, -f, 0⟩))

/-! The defs / use machinery of SVGMobject. -/

/-- A style dictionary, as the source's Dict[str, str]. -/
abbrev StyleD : Type := List (String × String)

/-- Python dict.update on the association-list model: bindings of upd are
written into base in order, replacing existing keys. -/
def dictUpdate (base upd : StyleD) : StyleD :=
  upd.foldl (fun acc kv => insRep acc kv.1 kv.2) base

/-- Models SVGMobject.use_to_mobjects, with the recursive call
get_mobjects_from abstracted as `walk`: strip the first character of the
xlink href, look the id up in def_map; a missing id warns and contributes
no geometry; a hit walks the referenced element with the use-site style
updated by the definition-time style (the def-time value wins on keys both
define).  The boolean records whether the warning was emitted; the function
returns in both branches (no exception escapes). -/
def useToMobjects {α β : Type} (defMap : List (String × (StyleD × α)))
    (walk : α → StyleD → List β) (href : String) (localStyle : StyleD) :
    List β × Bool :=
  let ref := href.drop 1
  match alookup defMap ref with
  | none => ([], true)
  | some (defStyle, elt) => (walk elt (dictUpdate localStyle defStyle), false)

/-! Numeric attribute handling. -/

/-- The characters kept by attribute_to_float: string.digits, dot, minus. -/
def keptChar (c : Char) : Bool := c.isDigit || c == '.' || c == '-'

/-- Models SVGMobject.attribute_to_float: all other characters are stripped
and Python float() runs on the residue; none models the ValueError raised
when the residue is not a float literal. -/
def attributeToFloat (attr : String) : Option ℚ :=
  parseFloat (attr.data.filter keptChar)

/-- The stroke-width attribute handling of rect_to_mobject: the listed
sentinel values collapse to the number zero, anything else is kept as the
raw attribute string. -/
inductive SWVal where
  | zeroSW
  | rawSW (s : String)
deriving DecidableEq

/-- Models the stroke_width branch of rect_to_mobject. -/
def rectStrokeWidth (attr : String) : SWVal :=
  if attr = "" ∨ attr = "none" ∨ attr = "0" then .zeroSW else .rawSW attr

/-- Models the corner_radius branch of rect_to_mobject: the sentinel values
become 0, anything else goes through plain float() on the raw attribute. -/
def rectCornerRadius (attr : String) : Option ℚ :=
  if attr = "" ∨ attr = "0" ∨ attr = "none" then some 0
  else parseFloat attr.data

/-! Helper lemmas.  The rational-arithmetic primitives are restored to their
default reducibility so that concrete compiler runs can be settled by
kernel evaluation. -/

attribute [local semireducible] Rat.mul Rat.add Rat.sub Rat.inv Rat.ofScientific

set_option maxRecDepth 40000

theorem alookup_insRep_self {α : Type} (l : List (String × α)) (k : String) (v : α) :
    alookup (insRep l k v) k = some v := by
  induction l with
  | nil => simp [insRep, alookup]
  | cons hd tl ih =>
    obtain ⟨k1, v1⟩ := hd
    by_cases h : k1 = k
    · simp [insRep, h, alookup]
    · simp [insRep, h, alookup, ih]

theorem alookup_insRep_ne {α : Type} (l : List (String × α)) (k k' : String) (v : α)
    (h : k' ≠ k) : alookup (insRep l k v) k' = alookup l k' := by
  induction l with
  | nil => simp [insRep, alookup, Ne.symm h]
  | cons hd tl ih =>
    obtain ⟨k1, v1⟩ := hd
    by_cases h1 : k1 = k
    · subst h1
      simp [insRep, alookup, Ne.symm h]
    · simp [insRep, h1, alookup, ih]

theorem insRep_cancel {α : Type} (l : List (String × α)) (k : String) (v : α)
    (h : alookup l k = some v) : insRep l k v = l := by
  induction l with
  | nil => simp [alookup] at h
  | cons hd tl ih =>
    obtain ⟨k1, v1⟩ := hd
    by_cases h1 : k1 = k
    · subst h1
      simp [alookup] at h
      simp [insRep, h]
    · simp [alookup, h1] at h
      simp [insRep, h1, ih h]

theorem alookup_dictUpdate_notin (base upd : StyleD) (k : String)
    (h : k ∉ upd.map Prod.fst) : alookup (dictUpdate base upd) k = alookup base k := by
  induction upd generalizing base with
  | nil => simp [dictUpdate]
  | cons hd tl ih =>
    obtain ⟨k1, v1⟩ := hd
    simp only [List.map_cons, List.mem_cons, not_or] at h
    have hstep : dictUpdate base ((k1, v1) :: tl) = dictUpdate (insRep base k1 v1) tl := by
      simp [dictUpdate]
    rw [hstep, ih _ h.2, alookup_insRep_ne _ _ _ _ h.1]

theorem alookup_dictUpdate_of_lookup (base upd : StyleD) (k : String) (v : String)
    (hnd : (upd.map Prod.fst).Nodup) (h : alookup upd k = some v) :
    alookup (dictUpdate base upd) k = some v := by
  induction upd generalizing base with
  | nil => simp [alookup] at h
  | cons hd tl ih =>
    obtain ⟨k1, v1⟩ := hd
    have hstep : dictUpdate base ((k1, v1) :: tl) = dictUpdate (insRep base k1 v1) tl := by
      simp [dictUpdate]
    simp only [List.map_cons, List.nodup_cons] at hnd
    by_cases h1 : k1 = k
    · subst h1
      simp [alookup] at h
      rw [hstep, alookup_dictUpdate_notin _ _ _ hnd.1, alookup_insRep_self, h]
    · simp only [alookup, if_neg h1] at h
      rw [hstep]
      exact ih _ hnd.2 h

theorem alookup_dictUpdate_none (base upd : StyleD) (k : String)
    (h : alookup upd k = none) : alookup (dictUpdate base upd) k = alookup base k := by
  induction upd generalizing base with
  | nil => simp [dictUpdate]
  | cons hd tl ih =>
    obtain ⟨k1, v1⟩ := hd
    have hstep : dictUpdate base ((k1, v1) :: tl) = dictUpdate (insRep base k1 v1) tl := by
      simp [dictUpdate]
    by_cases h1 : k1 = k
    · simp [alookup, h1] at h
    · simp only [alookup, if_neg h1] at h
      rw [hstep, ih _ h, alookup_insRep_ne _ _ _ _ (Ne.symm h1)]

/-! Claim theorems. -/

/-- C1, counterexample: the claim says compiling "m5,5 h20" yields endpoint
(25, 0); the compiler actually ends at (25, 5), because the relative
offset added by handle_command carries the current point forward on both
axes. -/
theorem c1_relative_h_endpoint_counterexample :
    lastPointOf (compilePath "m5,5 h20") = some ⟨25, 5, 0⟩ ∧
    lastPointOf (compilePath "m5,5 h20") ≠ some ⟨25, 0, 0⟩ := by
  constructor <;> decide

/-- C1, amended: string_to_points is asymmetric — only the absolute form
copies the omitted axis from the current point, the relative form's delta
keeps a zero there — but handle_command then adds the current point to the
whole relative delta, so "M5,5 H20" ends at (20, 5) and "m5,5 h20" ends at
(25, 5), not (25, 0). -/
theorem c1_hv_asymmetry_amended :
    stringToPoints ⟨5, 5, 0⟩ 'H' "20" = .ok [⟨20, 5, 0⟩] ∧
    stringToPoints ⟨5, 5, 0⟩ 'h' "20" = .ok [⟨20, 0, 0⟩] ∧
    stringToPoints ⟨5, 5, 0⟩ 'V' "20" = .ok [⟨5, 20, 0⟩] ∧
    stringToPoints ⟨5, 5, 0⟩ 'v' "20" = .ok [⟨0, 20, 0⟩] ∧
    lastPointOf (compilePath "M5,5 H20") = some ⟨20, 5, 0⟩ ∧
    lastPointOf (compilePath "m5,5 h20") = some ⟨25, 5, 0⟩ := by
  refine ⟨?_, ?_, ?_, ?_, ?_, ?_⟩ <;> decide

/-- C2, counterexample: the claim says "M0,0 10,10 20,20" produces exactly
the point set of "M0,0 L10,10 L20,20"; the former's anchor points are
(0,0), (10,10), (30,30) while the latter's are (0,0), (10,10), (20,20). -/
theorem c2_implicit_repetition_counterexample :
    anchorsOf (compilePath "M0,0 10,10 20,20") =
      some [⟨0, 0, 0⟩, ⟨10, 10, 0⟩, ⟨30, 30, 0⟩] ∧
    anchorsOf (compilePath "M0,0 L10,10 L20,20") =
      some [⟨0, 0, 0⟩, ⟨10, 10, 0⟩, ⟨20, 20, 0⟩] ∧
    anchorsOf (compilePath "M0,0 10,10 20,20") ≠
      anchorsOf (compilePath "M0,0 L10,10 L20,20") := by
  refine ⟨?_, ?_, ?_⟩ <;> decide

/-- C2, amended: excess coordinate pairs restart interpretation with the
same command letter, except that extras after an M continue as an implicit
relative line-to sequence (the source switches the command to lowercase l):
"M0,0 10,10 20,20" compiles exactly like "M0,0 l10,10 l20,20" (anchors
(0,0), (10,10), (30,30)), and same-letter restarts behave as separate
repetitions of that command. -/
theorem c2_implicit_repetition_amended :
    compilePath "M0,0 10,10 20,20" = compilePath "M0,0 l10,10 l20,20" ∧
    compilePath "M0,0 L10,10 20,20" = compilePath "M0,0 L10,10 L20,20" ∧
    compilePath "M0,0 l10,10 20,20" = compilePath "M0,0 l10,10 l20,20" ∧
    anchorsOf (compilePath "M0,0 10,10 20,20") =
      some [⟨0, 0, 0⟩, ⟨10, 10, 0⟩, ⟨30, 30, 0⟩] := by
  refine ⟨?_, ?_, ?_, ?_⟩ <;> decide

/-- C6: the matrix branch of handle_transforms maps every point (px, py, pz)
of every sub-element to (a px - c py + e, -b px + d py - f, pz): the linear
part is built from (a, b, c, d) with its y row and y column negated and is
applied by right-multiplication, followed by the shift (e, -f). -/
theorem c6_matrix_transform (a b c d e f : ℚ) (pts : List Pt3) :
    matrixTransformOp a b c d e f pts =
      pts.map (fun p => ⟨a * p.x - c * p.y + e, -b * p.x + d * p.y - f, p.z⟩) := by
  simp only [matrixTransformOp, List.map_map]
  refine List.map_congr_left (fun p _ => ?_)
  simp only [Function.comp_apply, dotRow, svgMatrix, negCol1, negRow1, setUpperLeft,
    identity3, shiftPt, padd]
  ext <;> ring

/-- C7: when a use element resolves, the referenced element is walked with
the use-site style updated by the definition-time style; on every key both
styles define the definition-time value wins, keys only the def-time style
defines are added, and keys it does not define fall through to the use-site
value; in particular a defs entry with fill=red referenced from a use site
with fill=blue resolves to fill=red. -/
theorem c7_use_style_precedence :
    (∀ (α β : Type) (defMap : List (String × (StyleD × α))) (walk : α → StyleD → List β)
       (href : String) (localStyle defStyle : StyleD) (elt : α),
       alookup defMap (href.drop 1) = some (defStyle, elt) →
       useToMobjects defMap walk href localStyle =
         (walk elt (dictUpdate localStyle defStyle), false)) ∧
    (∀ (localStyle defStyle : StyleD) (k v : String),
       (defStyle.map Prod.fst).Nodup → alookup defStyle k = some v →
       alookup (dictUpdate localStyle defStyle) k = some v) ∧
    (∀ (localStyle defStyle : StyleD) (k : String),
       alookup defStyle k = none →
       alookup (dictUpdate localStyle defStyle) k = alookup localStyle k) ∧
    alookup (dictUpdate [("fill", "blue")] [("fill", "red")]) "fill" = some "red" := by
  refine ⟨?_, ?_, ?_, by decide⟩
  · intro α β defMap walk href localStyle defStyle elt h
    simp [useToMobjects, h]
  · intro localStyle defStyle k v hnd h
    exact alookup_dictUpdate_of_lookup _ _ _ _ hnd h
  · intro localStyle defStyle k h
    exact alookup_dictUpdate_none _ _ _ h

/-- C7 witness: the red/blue instance, resolved through use_to_mobjects. -/
theorem c7_use_style_precedence_witness :
    alookup [("fill", "red")] "fill" = some "red" ∧
    alookup (dictUpdate [("fill", "blue")] [("fill", "red")]) "fill" = some "red" :=
  ⟨by decide,
   c7_use_style_precedence.2.1 [("fill", "blue")] [("fill", "red")] "fill" "red"
     (by decide) (by decide)⟩

/-- C8: a use element whose href id (first character stripped) is not in
the definition registry resolves to the empty geometry list with the
warning diagnostic emitted; use_to_mobjects returns normally rather than
raising. -/
theorem c8_missing_use_ref (α β : Type) (defMap : List (String × (StyleD × α)))
    (walk : α → StyleD → List β) (href : String) (localStyle : StyleD)
    (h : alookup defMap (href.drop 1) = none) :
    useToMobjects defMap walk href localStyle = ([], true) := by
  simp [useToMobjects, h]

/-- C8 witness: an empty registry and the href "#missing". -/
theorem c8_missing_use_ref_witness :
    alookup ([] : List (String × (StyleD × Unit))) (String.drop "#missing" 1) = none ∧
    useToMobjects ([] : List (String × (StyleD × Unit)))
      (fun _ _ => ([] : List Unit)) "#missing" [] = ([], true) :=
  ⟨by decide, c8_missing_use_ref Unit Unit [] _ "#missing" [] (by decide)⟩

/-- C9, counterexample: attribute_to_float does not fail on the malformed
numeric token "10px"; it strips the stray characters and returns 10. -/
theorem c9_malformed_attribute_counterexample :
    attributeToFloat "10px" = some 10 ∧ attributeToFloat "10px" ≠ none := by
  constructor <;> decide

/-- C9, amended: attribute_to_float silently strips every character other
than digits, dot and minus before parsing, so stray non-numeric characters
are coerced away ("10px" becomes 10); a parse failure arises exactly when
the stripped residue is not a float literal (for instance when no numeric
character occurs at all, or on "1.2.3"); the rect defaults are as
specified: missing/none/zero stroke-width and corner-radius become 0, and
a rect corner radius such as "5px" (parsed by plain float(), without
stripping) does propagate a failure. -/
theorem c9_attribute_parsing_amended :
    (∀ s : String, (∀ c ∈ s.data, keptChar c = false) → attributeToFloat s = none) ∧
    attributeToFloat "10px" = some 10 ∧
    attributeToFloat "-1.5e3units" = some (-(153 / 100)) ∧
    attributeToFloat "1.2.3" = none ∧
    attributeToFloat "" = none ∧
    rectStrokeWidth "" = .zeroSW ∧
    rectStrokeWidth "none" = .zeroSW ∧
    rectStrokeWidth "0" = .zeroSW ∧
    rectStrokeWidth "2" = .rawSW "2" ∧
    rectCornerRadius "" = some 0 ∧
    rectCornerRadius "0" = some 0 ∧
    rectCornerRadius "none" = some 0 ∧
    rectCornerRadius "5px" = none := by
  refine ⟨?_, by decide, ?_, by decide, by decide, by decide, by decide, by decide,
    by decide, by decide, by decide, by decide, by decide⟩
  · intro s h
    have hf : s.data.filter keptChar = [] := by
      refine List.filter_eq_nil_iff.mpr (fun a ha => ?_)
      simp [h a ha]
    simp only [attributeToFloat, hf]
    decide
  · decide

/-- C9 witness: the all-stray attribute "px" fails to parse. -/
theorem c9_attribute_parsing_witness :
    (∀ c ∈ ("px" : String).data, keptChar c = false) ∧ attributeToFloat "px" = none :=
  ⟨by decide, c9_attribute_parsing_amended.1 "px" (by decide)⟩

/-! Tokenizer membership lemmas. -/

theorem tokAux_self (l : List Char) (c0 : Char) (acc : List Char) :
    ∃ cs, (c0, cs) ∈ tokAux l c0 acc := by
  induction l generalizing acc with
  | nil => exact ⟨String.mk acc.reverse, by simp [tokAux]⟩
  | cons ch rest ih =>
    by_cases h : isCommandChar ch
    · exact ⟨String.mk acc.reverse, by simp [tokAux, h]⟩
    · obtain ⟨cs, hcs⟩ := ih (ch :: acc)
      exact ⟨cs, by simpa [tokAux, h] using hcs⟩

theorem tokAux_mem (l : List Char) (c0 : Char) (acc : List Char) (c : Char)
    (hc : c ∈ l) (hcmd : isCommandChar c = true) :
    ∃ cs, (c, cs) ∈ tokAux l c0 acc := by
  induction l generalizing c0 acc with
  | nil => cases hc
  | cons ch rest ih =>
    rcases List.mem_cons.mp hc with rfl | hmem
    · obtain ⟨cs, hcs⟩ := tokAux_self rest c []
      exact ⟨cs, by simp [tokAux, hcmd, hcs]⟩
    · by_cases h : isCommandChar ch
      · obtain ⟨cs, hcs⟩ := ih ch [] hmem
        exact ⟨cs, by simp [tokAux, h, hcs]⟩
      · obtain ⟨cs, hcs⟩ := ih c0 (ch :: acc) hmem
        exact ⟨cs, by simpa [tokAux, h] using hcs⟩

theorem findFirstCmd_mem (l : List Char) (c : Char) (hc : c ∈ l)
    (hcmd : isCommandChar c = true) : ∃ cs, (c, cs) ∈ findFirstCmd l := by
  induction l with
  | nil => cases hc
  | cons ch rest ih =>
    rcases List.mem_cons.mp hc with rfl | hmem
    · obtain ⟨cs, hcs⟩ := tokAux_self rest c []
      exact ⟨cs, by simp [findFirstCmd, hcmd, hcs]⟩
    · by_cases h : isCommandChar ch
      · obtain ⟨cs, hcs⟩ := tokAux_mem rest ch [] c hmem hcmd
        exact ⟨cs, by simp [findFirstCmd, h, hcs]⟩
      · obtain ⟨cs, hcs⟩ := ih hmem
        exact ⟨cs, by simpa [findFirstCmd, h] using hcs⟩

theorem stringToPoints_ok_not_arc {rp : Pt3} {c : Char} {cs : String} {pts : List Pt3}
    (h : stringToPoints rp c cs = .ok pts) : c.toUpper ≠ 'A' := by
  intro hA
  rw [stringToPoints] at h
  cases hn : stringToNumbers cs with
  | none => rw [hn] at h; cases h
  | some nums =>
    rw [hn] at h
    simp only [hA] at h
    simp at h

theorem compileCommands_ok_no_arc :
    ∀ (l : List (Char × String)) (st st' : PathState),
    compileCommands l st = some (.ok st') → ∀ p ∈ l, p.1.toUpper ≠ 'A' := by
  intro l
  induction l with
  | nil => intro st st' _ p hp; cases hp
  | cons hd tl ih =>
    obtain ⟨c, cs⟩ := hd
    intro st st' h p hp
    rw [compileCommands] at h
    split at h
    · simp at h
    · rename_i pts hsp
      split at h
      · cases h
      · simp at h
      · rename_i st1 hhc
        rcases List.mem_cons.mp hp with rfl | hmem
        · exact stringToPoints_ok_not_arc hsp
        · exact ih st1 st' h p hmem

theorem hasArc_token {s : String} (h : hasArc s = true) :
    ∃ c cs, (c, cs) ∈ tokenizePath s ∧ c.toUpper = 'A' := by
  rw [hasArc, List.any_eq_true] at h
  obtain ⟨c, hc, hca⟩ := h
  have hAa : c = 'A' ∨ c = 'a' := by
    rcases (Bool.or_eq_true _ _).mp hca with h1 | h1
    · exact Or.inl (beq_iff_eq.mp h1)
    · exact Or.inr (beq_iff_eq.mp h1)
  have hcmd : isCommandChar c = true := by rcases hAa with rfl | rfl <;> decide
  obtain ⟨cs, hcs⟩ := findFirstCmd_mem s.data c hc hcmd
  refine ⟨c, cs, hcs, ?_⟩
  rcases hAa with rfl | rfl <;> decide

/-- C3, counterexample: the claim says an arc-containing path string fails
with the not-implemented condition, but string_to_numbers runs before the
arc check inside string_to_points, so in "Mx A2,2" the malformed numeric
token "x" of the M command surfaces as the float ValueError — a different
failure than the not-implemented condition — before the arc command is
ever examined. -/
theorem c3_arc_other_error_counterexample :
    hasArc "Mx A2,2" = true ∧
    compileGeometry "Mx A2,2" = some (.error .badNumber) ∧
    (Except.error PErr.badNumber : Except PErr (List Subpath)) ≠
      Except.error PErr.notImplemented := by
  refine ⟨by decide, by decide, by decide⟩

/-- C3, amended: a path string containing the arc command letter A or a
never compiles to geometry: whenever compilation returns a result it is
an error, so no partial geometry is ever produced and arcs are never
silently approximated; whenever the arc command itself is reached with
coordinates that string_to_numbers parses, the error is precisely the
not-implemented condition (a malformed numeric token elsewhere in the
string can surface its parse failure first); in particular the
well-formed arc path "M1,1 A2,2" fails with not-implemented. -/
theorem c3_arc_never_compiles :
    (∀ s, hasArc s = true → ∀ r, compileGeometry s = some r → r.isOk = false) ∧
    (∀ (rp : Pt3) (c : Char) (cs : String) (nums : List ℚ),
       (c = 'A' ∨ c = 'a') → stringToNumbers cs = some nums →
       stringToPoints rp c cs = .error .notImplemented) ∧
    compileGeometry "M1,1 A2,2" = some (.error .notImplemented) := by
  refine ⟨?_, ?_, by decide⟩
  · intro s hs r hr
    rw [compileGeometry] at hr
    cases hcp : compilePath s with
    | none => rw [hcp] at hr; cases hr
    | some x =>
      rw [hcp] at hr
      cases x with
      | error e =>
        simp only [Option.map_some'] at hr
        injection hr with hr
        subst hr
        rfl
      | ok st =>
        exfalso
        obtain ⟨c, cs, hmem, hA⟩ := hasArc_token hs
        rw [compilePath] at hcp
        exact compileCommands_ok_no_arc _ _ _ hcp (c, cs) hmem hA
  · intro rp c cs nums hc hn
    have hA : c.toUpper = 'A' := by rcases hc with rfl | rfl <;> decide
    rw [stringToPoints, hn]
    simp [hA]

/-- C3 witness: the arc path "M1,1 A2,2" fails with the not-implemented
condition and returns no geometry, and the arc command applied to the
parseable coordinates "2,2" raises exactly not-implemented. -/
theorem c3_arc_never_compiles_witness :
    hasArc "M1,1 A2,2" = true ∧
    (Except.error PErr.notImplemented : Except PErr (List Subpath)).isOk = false ∧
    stringToPoints originPt 'A' "2,2" = .error .notImplemented :=
  ⟨by decide, c3_arc_never_compiles.1 "M1,1 A2,2" (by decide) _ (by decide),
   c3_arc_never_compiles.2.1 originPt 'A' "2,2" [2, 2] (Or.inl rfl) (by decide)⟩

theorem pointsName_ne_trisName (s : String) : pointsName s ≠ trisName s := by
  intro h
  have hlen := congrArg String.length h
  rw [pointsName, trisName, String.length_append, String.length_append] at hlen
  have h1 : ("_points.npy" : String).length = 11 := by decide
  have h2 : ("_tris.npy" : String).length = 9 := by decide
  omega

theorem initPoints_hit (store : Store) (s : String) (g : List Subpath)
    (h1 : fget store (pointsName s) = some (.valid g))
    (h2 : fexists store (trisName s) = true) :
    initPointsModel store s = some (.ok (g, store, false)) := by
  have he1 : fexists store (pointsName s) = true := by rw [fexists, h1]; rfl
  simp only [initPointsModel]
  rw [if_pos (by rw [he1, h2]; rfl)]
  rw [h1]

theorem initPoints_miss (store : Store) (s : String)
    (h : (fexists store (pointsName s) && fexists store (trisName s)) = false) :
    initPointsModel store s =
      match compileGeometry s with
      | none => none
      | some (.error e) => some (.error e)
      | some (.ok g) =>
        if store.writable then some (.ok (g, fput store (pointsName s) (.valid g), true))
        else some (.error .writeFailed) := by
  simp only [initPointsModel]
  rw [if_neg (by rw [h]; simp)]

theorem initPoints_miss_invoked (store : Store) (s : String) (g : List Subpath)
    (st1 : Store) (b : Bool)
    (h : (fexists store (pointsName s) && fexists store (trisName s)) = false)
    (hinit : initPointsModel store s = some (.ok (g, st1, b))) : b = true := by
  rw [initPoints_miss store s h] at hinit
  split at hinit
  · cases hinit
  · simp at hinit
  · split at hinit
    · simp only [Option.some.injEq, Except.ok.injEq, Prod.mk.injEq] at hinit
      exact hinit.2.2.symm
    · simp at hinit

theorem initPoints_idem (store : Store) (s : String) (g : List Subpath)
    (st1 : Store) (b : Bool)
    (h : initPointsModel store s = some (.ok (g, st1, b))) :
    ∃ b2, initPointsModel st1 s = some (.ok (g, st1, b2)) := by
  by_cases hc : (fexists store (pointsName s) && fexists store (trisName s)) = true
  · simp only [initPointsModel] at h
    rw [if_pos hc] at h
    split at h
    · rename_i gg hg
      simp only [Option.some.injEq, Except.ok.injEq, Prod.mk.injEq] at h
      obtain ⟨h1, h2, -⟩ := h
      subst h1
      subst h2
      have hc' := hc
      rw [Bool.and_eq_true] at hc'
      exact ⟨false, initPoints_hit store s gg hg hc'.2⟩
    · simp at h
  · have hcf : (fexists store (pointsName s) && fexists store (trisName s)) = false := by
      cases hb : (fexists store (pointsName s) && fexists store (trisName s))
      · rfl
      · exact absurd hb hc
    rw [initPoints_miss store s hcf] at h
    split at h
    · cases h
    · simp at h
    · rename_i gg hcg
      split at h
      · rename_i hw
        simp only [Option.some.injEq, Except.ok.injEq, Prod.mk.injEq] at h
        obtain ⟨h1, h2, -⟩ := h
        subst h1
        subst h2
        have hpf : fget (fput store (pointsName s) (.valid gg)) (pointsName s) =
            some (.valid gg) := by
          rw [fget, fput]
          exact alookup_insRep_self _ _ _
        by_cases ht : fexists (fput store (pointsName s) (.valid gg)) (trisName s) = true
        · exact ⟨false, initPoints_hit _ s gg hpf ht⟩
        · refine ⟨true, ?_⟩
          rw [initPoints_miss _ s (by
            rw [Bool.and_eq_false_iff]
            refine Or.inr ?_
            cases hb : fexists (fput store (pointsName s) (.valid gg)) (trisName s)
            · rfl
            · exact absurd hb ht)]
          rw [hcg]
          have hwr : (fput store (pointsName s) (.valid gg)).writable = true := hw
          have hcancel : fput (fput store (pointsName s) (.valid gg)) (pointsName s)
              (.valid gg) = fput store (pointsName s) (.valid gg) := by
            rw [fput, fput]
            rw [insRep_cancel _ _ _ (alookup_insRep_self _ _ _)]
          simp only [hwr, if_true, hcancel]
      · simp at h

/-- C4: the cache key is the first 16 hex characters of the SHA-256 of the
raw path string (the digest function is pinned by the standard "abc" test
vector); the cache file names are that key with the points and tris
suffixes; a cache hit happens exactly when both files are present, loads
the stored already-flipped geometry without invoking the curve compiler,
and leaves the store unchanged; a miss invokes the compiler; and running
init_points again on the store produced by a successful run yields the
identical geometry. -/
theorem c4_cache_semantics :
    sha256hex "abc" = "ba7816bf8f01cfea414140de5dae2223b00361a396177a9cb410ff61f20015ad" ∧
    (∀ s, cacheKey s = (sha256hex s).take 16 ∧
          pointsName s = cacheKey s ++ "_points.npy" ∧
          trisName s = cacheKey s ++ "_tris.npy") ∧
    (∀ (store : Store) (s : String) (g : List Subpath),
       fget store (pointsName s) = some (.valid g) →
       fexists store (trisName s) = true →
       initPointsModel store s = some (.ok (g, store, false))) ∧
    (∀ (store : Store) (s : String) (g : List Subpath) (st1 : Store) (b : Bool),
       (fexists store (pointsName s) && fexists store (trisName s)) = false →
       initPointsModel store s = some (.ok (g, st1, b)) → b = true) ∧
    (∀ (store : Store) (s : String) (g : List Subpath) (st1 : Store) (b : Bool),
       initPointsModel store s = some (.ok (g, st1, b)) →
       ∃ b2, initPointsModel st1 s = some (.ok (g, st1, b2))) :=
  ⟨by decide, fun _ => ⟨rfl, rfl, rfl⟩, initPoints_hit, initPoints_miss_invoked,
   initPoints_idem⟩

/-- C4 witness: a store holding both cache files for "M0,0" hits without
invoking the compiler, and rerunning on the resulting store reproduces the
same geometry. -/
theorem c4_cache_semantics_witness :
    fget (⟨[(pointsName "M0,0", FileData.valid [⟨⟨0, 0, 0⟩, [], false⟩]),
            (trisName "M0,0", FileData.valid [])], true⟩ : Store) (pointsName "M0,0") =
      some (.valid [⟨⟨0, 0, 0⟩, [], false⟩]) ∧
    initPointsModel ⟨[(pointsName "M0,0", FileData.valid [⟨⟨0, 0, 0⟩, [], false⟩]),
                      (trisName "M0,0", FileData.valid [])], true⟩ "M0,0" =
      some (.ok ([⟨⟨0, 0, 0⟩, [], false⟩],
                 ⟨[(pointsName "M0,0", FileData.valid [⟨⟨0, 0, 0⟩, [], false⟩]),
                   (trisName "M0,0", FileData.valid [])], true⟩, false)) :=
  ⟨by decide,
   c4_cache_semantics.2.2.1 _ "M0,0" [⟨⟨0, 0, 0⟩, [], false⟩] (by decide) (by decide)⟩

/-- C5, counterexample: the claim says corruption of the cache files never
prevents recomputation; but with a present-but-corrupt points file (and the
tris file present) init_points propagates the load failure instead of
recomputing, even though the geometry is recomputable. -/
theorem c5_cache_corruption_counterexample :
    initPointsModel ⟨[(pointsName "M0,0", FileData.corrupt),
                      (trisName "M0,0", FileData.valid [])], true⟩ "M0,0" =
      some (.error .cacheCorrupt) ∧
    compileGeometry "M0,0" = some (.ok [⟨⟨0, 0, 0⟩, [], false⟩]) := by
  constructor <;> decide

/-- C5, amended: absence of either cache file is indeed non-fatal — a miss
recomputes the geometry and returns it — but cache failures are not
guarded: a corrupt points file with the tris file present makes the load
error propagate with no fallback to recomputation, and a failed cache
write aborts the compile that produced the geometry. -/
theorem c5_cache_failures_amended :
    (∀ (store : Store) (s : String) (g : List Subpath),
       (fexists store (pointsName s) && fexists store (trisName s)) = false →
       store.writable = true → compileGeometry s = some (.ok g) →
       initPointsModel store s =
         some (.ok (g, fput store (pointsName s) (.valid g), true))) ∧
    (∀ (store : Store) (s : String),
       fget store (pointsName s) = some .corrupt →
       fexists store (trisName s) = true →
       initPointsModel store s = some (.error .cacheCorrupt)) ∧
    (∀ (store : Store) (s : String) (g : List Subpath),
       (fexists store (pointsName s) && fexists store (trisName s)) = false →
       store.writable = false → compileGeometry s = some (.ok g) →
       initPointsModel store s = some (.error .writeFailed)) := by
  refine ⟨?_, ?_, ?_⟩
  · intro store s g hmiss hw hcg
    rw [initPoints_miss store s hmiss, hcg]
    simp only [hw, if_true]
  · intro store s h1 h2
    have he1 : fexists store (pointsName s) = true := by rw [fexists, h1]; rfl
    simp only [initPointsModel]
    rw [if_pos (by rw [he1, h2]; rfl)]
    rw [h1]
  · intro store s g hmiss hw hcg
    rw [initPoints_miss store s hmiss, hcg]
    simp only [hw, Bool.false_eq_true, if_false]

/-- C5 witness: with no cache files present, compiling "M0,0" recomputes
and returns the geometry (absence is non-fatal). -/
theorem c5_cache_failures_amended_witness :
    (fexists (⟨[], true⟩ : Store) (pointsName "M0,0") &&
       fexists (⟨[], true⟩ : Store) (trisName "M0,0")) = false ∧
    initPointsModel ⟨[], true⟩ "M0,0" =
      some (.ok ([⟨⟨0, 0, 0⟩, [], false⟩],
                 fput ⟨[], true⟩ (pointsName "M0,0") (.valid [⟨⟨0, 0, 0⟩, [], false⟩]),
                 true)) :=
  ⟨by decide,
   c5_cache_failures_amended.1 ⟨[], true⟩ "M0,0" [⟨⟨0, 0, 0⟩, [], false⟩]
     (by decide) rfl (by decide)⟩

end SvgSpec
